import Mathlib

/-!
# Screen-heatmap: Analysis Result Synthesis & Normalization Engine

Shallow embedding of the repository's core logic:
* `src/app/api/analyze/route.ts` (edge runtime route) and the node-runtime
  route file (`src/unnamed/part_002`): `hashString`, `makeRand`,
  `generateIssues`, `normalizeResult`, `clampInt`, `POST`;
* the page component (`src/unnamed/part_001`): `bboxToStyle`.

JavaScript numbers are modelled as `JsNum` (NaN, the two infinities, and a
finite rational); untrusted JSON-like values as `Json` (with an explicit
`undef` for JavaScript's `undefined`, which member access can produce).
32-bit integer state is modelled as `Nat` with explicit `% 2^32` reduction.
Code that can throw a `TypeError` is modelled in `Except String`.
-/

/-- A JavaScript number: NaN, +Infinity, -Infinity, or a finite value
(modelled exactly as a rational). -/
inductive JsNum where
  | nan
  | posInf
  | negInf
  | finite (q : ℚ)
deriving DecidableEq, Repr

/-- A JSON-like JavaScript value, as handled by the normalizer.  `undefined`
models JavaScript's `undefined` (produced by member access on objects that
lack the key); it is not produced by `JSON.parse` but flows through the
code. -/
inductive Json where
  | undefined
  | null
  | bool (b : Bool)
  | num (x : JsNum)
  | str (s : String)
  | arr (elems : List Json)
  | obj (fields : List (String × Json))

/-- A value is nullish when it is `null` or `undefined`. -/
def Json.isNullish : Json → Bool
  | .undefined => true
  | .null => true
  | _ => false

/-- JavaScript truthiness of a value. -/
def Json.truthy : Json → Bool
  | .undefined => false
  | .null => false
  | .bool b => b
  | .num .nan => false
  | .num (.finite q) => decide (q ≠ 0)
  | .num _ => true
  | .str s => decide (s ≠ "")
  | .arr _ => true
  | .obj _ => true

/-- Plain member access `j[k]` on a non-nullish value: lookup on objects,
`undefined` on primitives and arrays (the keys used here are never array
indices or built-in properties). -/
def Json.memberD (j : Json) (k : String) : Json :=
  match j with
  | .obj fields => (fields.lookup k).getD .undefined
  | _ => .undefined

/-- Member access `j[k]` as executed by JavaScript: throws a `TypeError`
when `j` is nullish. -/
def Json.getMember (j : Json) (k : String) : Except String Json :=
  if j.isNullish then .error ("TypeError: cannot read " ++ k ++ " of nullish")
  else .ok (j.memberD k)

/-- Optional-chained member access `j?.[k]`: `undefined` when `j` is
nullish, plain access otherwise. -/
def Json.chainMember (j : Json) (k : String) : Json :=
  if j.isNullish then .undefined else j.memberD k

/-- Nullish coalescing `j ?? d`. -/
def Json.coalesce (j d : Json) : Json :=
  if j.isNullish then d else j

/-- JavaScript's `ToNumber` coercion restricted to a small string grammar:
the empty/whitespace string is `0`, an optional-sign decimal integer is its
value, and everything else is NaN.  (The code under verification never
relies on fractional, hexadecimal or `Infinity` string forms.) -/
def strToNumber (s : String) : JsNum :=
  let t := s.trim
  if t = "" then .finite 0
  else match t.toInt? with
    | some n => .finite (n : ℚ)
    | none => .nan

/-- JavaScript's `ToNumber` coercion on the values modelled here.  A
one-element array coerces through its string form: `[null]`, `[undefined]`
and `[]` give `0`, `[true]`/`[false]` give NaN (their string forms are not
numeric), and a single number, numeric string or nested singleton array
coerces recursively. -/
def Json.toNumber : Json → JsNum
  | .undefined => .nan
  | .null => .finite 0
  | .bool b => .finite (if b then 1 else 0)
  | .num x => x
  | .str s => strToNumber s
  | .obj _ => .nan
  | .arr [] => .finite 0
  | .arr [.null] => .finite 0
  | .arr [.undefined] => .finite 0
  | .arr [.bool _] => .nan
  | .arr [e] => e.toNumber
  | .arr (_ :: _ :: _) => .nan

/-- `Math.max` on two numbers: NaN-propagating maximum. -/
def jsMax : JsNum → JsNum → JsNum
  | .nan, _ => .nan
  | _, .nan => .nan
  | .posInf, _ => .posInf
  | _, .posInf => .posInf
  | .negInf, y => y
  | x, .negInf => x
  | .finite a, .finite b => .finite (max a b)

/-- `Math.min` on two numbers: NaN-propagating minimum. -/
def jsMin : JsNum → JsNum → JsNum
  | .nan, _ => .nan
  | _, .nan => .nan
  | .negInf, _ => .negInf
  | _, .negInf => .negInf
  | .posInf, y => y
  | x, .posInf => x
  | .finite a, .finite b => .finite (min a b)

/-- `Math.round`: round half toward positive infinity, i.e. `⌊v + 1/2⌋` on
finite values; NaN and the infinities are fixed points. -/
def jsRound : JsNum → JsNum
  | .nan => .nan
  | .posInf => .posInf
  | .negInf => .negInf
  | .finite q => .finite (⌊q + 1/2⌋ : ℤ)

/-- Subtraction of JavaScript numbers. -/
def jsSub : JsNum → JsNum → JsNum
  | .nan, _ => .nan
  | _, .nan => .nan
  | .posInf, .posInf => .nan
  | .negInf, .negInf => .nan
  | .posInf, _ => .posInf
  | .negInf, _ => .negInf
  | .finite _, .posInf => .negInf
  | .finite _, .negInf => .posInf
  | .finite a, .finite b => .finite (a - b)

/-- `Number.isNaN(value)`: true exactly when the value is the NaN number
(no coercion). -/
def Json.isNaNValue : Json → Bool
  | .num .nan => true
  | _ => false

/-- `clampInt(value, min, max)` from the node route: returns `min` for the
NaN number, otherwise `Math.min(max, Math.max(min, Math.round(value)))`
after `ToNumber` coercion of `value`. -/
def clampInt (value : Json) (lo hi : JsNum) : JsNum :=
  if value.isNaNValue then lo
  else jsMin hi (jsMax lo (jsRound value.toNumber))

/-- A normalized issue: the spread source (`{...issue}`), the `id` field
and the rebuilt `bbox`. -/
structure NIssue where
  orig : Json
  id : Json
  x : JsNum
  y : JsNum
  w : JsNum
  h : JsNum

/-- The per-issue body of `normalizeResult`'s `.map` callback.  Member
access `issue.bbox` throws when the entry is nullish; afterwards every step
is total.  `idx` is the 0-based position in the array. -/
def normalizeIssue (width height : ℤ) (idx : Nat) (issue : Json) :
    Except String NIssue :=
  if issue.isNullish then
    .error "TypeError: cannot read bbox of nullish issue"
  else
    let bbox := issue.memberD "bbox"
    let x := clampInt ((bbox.chainMember "x").coalesce (.num (.finite 0)))
      (.finite 0) (.finite ((width : ℚ) - 1))
    let y := clampInt ((bbox.chainMember "y").coalesce (.num (.finite 0)))
      (.finite 0) (.finite ((height : ℚ) - 1))
    let w := clampInt ((bbox.chainMember "w").coalesce (.num (.finite 40)))
      (.finite 10) (jsSub (.finite (width : ℚ)) x)
    let h := clampInt ((bbox.chainMember "h").coalesce (.num (.finite 40)))
      (.finite 10) (jsSub (.finite (height : ℚ)) y)
    let idJ := issue.memberD "id"
    .ok { orig := issue
          id := if idJ.truthy then idJ else .str ("iss_" ++ toString (idx + 1))
          x := x, y := y, w := w, h := h }

/-- The indexed `.map` over the issues array. -/
def mapIssues (width height : ℤ) : Nat → List Json → Except String (List NIssue)
  | _, [] => .ok []
  | idx, j :: rest =>
    match normalizeIssue width height idx j with
    | .error e => .error e
    | .ok ni =>
      match mapIssues width height (idx + 1) rest with
      | .error e => .error e
      | .ok tail => .ok (ni :: tail)

/-- The value built by `normalizeResult`: the caller-supplied image size,
the normalized issues, the recomputed low-quality flag, and the
passed-through `processing_ms`. -/
structure NormResult where
  width : ℤ
  height : ℤ
  issues : List NIssue
  low_quality_warning : Bool
  processing_ms : Json

/-- `normalizeResult(result, width, height)` from the node route.
`(result.issues || [])` throws when `result` is nullish; `.map` throws when
the issues value is truthy but not an array; each callback invocation can
throw on a nullish entry. -/
def normalizeResult (result : Json) (width height : ℤ) :
    Except String NormResult :=
  match result.getMember "issues" with
  | .error e => .error e
  | .ok issuesJ =>
    match (if issuesJ.truthy then issuesJ else Json.arr []) with
    | .arr entries =>
      match mapIssues width height 0 entries with
      | .error e => .error e
      | .ok issues =>
        .ok { width := width, height := height, issues := issues
              low_quality_warning := decide (width < 640) || decide (height < 400)
              processing_ms := (result.memberD "meta").chainMember "processing_ms" }
    | _ => .error "TypeError: base.map is not a function"

/-- `hashString`: 32-bit FNV-1a over UTF-16 code units (`charCodeAt`);
for the strings involved every character is a single code unit, so the
code point value is used.  `Math.imul` is multiplication mod `2^32`. -/
def hashString (input : String) : Nat :=
  input.toList.foldl
    (fun acc c => ((acc ^^^ (c.toNat % 4294967296)) * 16777619) % 4294967296)
    2166136261

/-- One step of the xorshift stream inside `makeRand`: the three
shift-xor-assignments on 32-bit state, viewed as an unsigned 32-bit value
(JavaScript performs them on `ToInt32` values; the bit pattern agrees). -/
def randStep (x : Nat) : Nat :=
  let a := x ^^^ ((x <<< 13) % 4294967296)
  let b := a ^^^ (a >>> 17)
  b ^^^ ((b <<< 5) % 4294967296)

/-- The initial generator state of `makeRand(seed)`: `seed || 123456789`
substitutes the fixed non-zero default for a zero seed. -/
def makeRandInit (seed : Nat) : Nat :=
  if seed = 0 then 123456789 else seed

/-- The value returned by one generator call at state `x`: the state is
advanced and the new state is normalized by `(x >>> 0) / 4294967295`. -/
def randValueAt (x : Nat) : ℚ :=
  ((randStep x : ℕ) : ℚ) / 4294967295

/-- State after `n` generator calls for `makeRand(seed)`. -/
def randState (seed : Nat) : Nat → Nat
  | 0 => makeRandInit seed
  | n + 1 => randStep (randState seed n)

/-- The `n`-th (0-based) value produced by the generator of
`makeRand(seed)`. -/
def randValue (seed : Nat) (n : Nat) : ℚ :=
  ((randState seed (n + 1) : ℕ) : ℚ) / 4294967295

/-- Issue severity. -/
inductive Severity where
  | high
  | medium
  | low
deriving DecidableEq, Repr

/-- The `severities` array of `generateIssues`. -/
def severities : List Severity := [.high, .medium, .low]

/-- One catalog template: category, title, rationale, recommendation. -/
structure Template where
  category : String
  title : String
  rationale : String
  recommendation : String
deriving DecidableEq, Repr

/-- The template catalog of the edge route (`route.ts`). -/
def templatesEdge : List Template :=
  [ { category := "cta", title := "Primary CTA lacks visual priority"
      rationale := "The CTA blends with surrounding elements and loses attention."
      recommendation := "Increase contrast and size to make the CTA dominant." }
  , { category := "hierarchy", title := "Headline hierarchy is unclear"
      rationale := "Headline weight is similar to body text, reducing scanability."
      recommendation := "Boost font size/weight for the primary headline." }
  , { category := "layout", title := "Content density feels high"
      rationale := "Multiple blocks compete for attention at the same level."
      recommendation := "Add spacing and group related blocks into clear sections." }
  , { category := "accessibility", title := "Low contrast text area"
      rationale := "Text sits on a low-contrast background and is hard to read."
      recommendation := "Increase contrast or adjust background brightness." } ]

/-- The template catalog of the node route (`part_002`). -/
def templatesNode : List Template :=
  [ { category := "cta", title := "Главный CTA теряет визуальный приоритет"
      rationale := "Кнопка сливается с окружением и не притягивает внимание."
      recommendation := "Увеличьте контраст и размер, чтобы CTA стал доминирующим." }
  , { category := "hierarchy", title := "Иерархия заголовков неочевидна"
      rationale := "Заголовок по весу близок к основному тексту, страдает сканируемость."
      recommendation := "Усильте размер/начертание основного заголовка." }
  , { category := "layout", title := "Высокая плотность контента"
      rationale := "Несколько блоков конкурируют за внимание на одном уровне."
      recommendation := "Добавьте воздуха и сгруппируйте связанные блоки." }
  , { category := "accessibility", title := "Зона с низким контрастом текста"
      rationale := "Текст на фоне с низким контрастом читается хуже."
      recommendation := "Увеличьте контраст или скорректируйте яркость фона." } ]

/-- A synthesized issue (`bbox` flattened into the four fields).  The
severity is `none` when `severities[Math.floor(rand()*3)]` indexes past the
end (JavaScript yields `undefined` there without throwing). -/
structure Issue where
  id : String
  x : ℤ
  y : ℤ
  w : ℤ
  h : ℤ
  severity : Option Severity
  category : String
  title : String
  rationale : String
  recommendation : String
deriving DecidableEq, Repr

/-- The loop body of `generateIssues` for issue index `i`, starting from
generator state `st`; identical in both route files up to the template
catalog `tpl`.  Draws, in order: template index, width fraction, height
fraction, x, y, severity.  `templates[Math.floor(rand()*4)]` is `undefined`
when the index is 4 (only possible when that draw is exactly 1), in which
case reading `t.category` in the object literal throws. -/
def genIssue (tpl : List Template) (width height : ℤ) (i : Nat) (st : Nat) :
    Except String (Issue × Nat) :=
  let s1 := randStep st
  let r1 : ℚ := (s1 : ℚ) / 4294967295
  let s2 := randStep s1
  let r2 : ℚ := (s2 : ℚ) / 4294967295
  let s3 := randStep s2
  let r3 : ℚ := (s3 : ℚ) / 4294967295
  let s4 := randStep s3
  let r4 : ℚ := (s4 : ℚ) / 4294967295
  let s5 := randStep s4
  let r5 : ℚ := (s5 : ℚ) / 4294967295
  let s6 := randStep s5
  let r6 : ℚ := (s6 : ℚ) / 4294967295
  let w : ℤ := max 120 ⌊(width : ℚ) * (18/100 + r2 * (22/100))⌋
  let h : ℤ := max 64 ⌊(height : ℚ) * (8/100 + r3 * (14/100))⌋
  let x : ℤ := ⌊r4 * max 1 ((width : ℚ) - w - 8)⌋
  let y : ℤ := ⌊r5 * max 1 ((height : ℚ) - h - 8)⌋
  match tpl.get? (⌊r1 * 4⌋).toNat with
  | none => .error "TypeError: cannot read category of undefined template"
  | some t =>
    .ok ({ id := "iss_" ++ toString (i + 1), x := x, y := y, w := w, h := h
           severity := severities.get? (⌊r6 * 3⌋).toNat
           category := t.category, title := t.title
           rationale := t.rationale, recommendation := t.recommendation }, s6)

/-- The `for` loop of `generateIssues`: `n` remaining iterations, next
issue index `i`, generator state threaded through. -/
def genLoop (tpl : List Template) (width height : ℤ) :
    Nat → Nat → Nat → Except String (List Issue × Nat)
  | 0, _, st => .ok ([], st)
  | n + 1, i, st =>
    match genIssue tpl width height i st with
    | .error e => .error e
    | .ok (iss, st2) =>
      match genLoop tpl width height n (i + 1) st2 with
      | .error e => .error e
      | .ok (rest, st3) => .ok (iss :: rest, st3)

/-- `generateIssues` of the node route (`part_002`): one draw for the
count, `2 + Math.floor(rand()*3)` issues. -/
def generateIssuesNode (width height : ℤ) (st : Nat) :
    Except String (List Issue × Nat) :=
  let s1 := randStep st
  let r : ℚ := (s1 : ℚ) / 4294967295
  genLoop templatesNode width height (2 + ⌊r * 3⌋).toNat 0 s1

/-- `generateIssues` of the edge route (`route.ts`): the first draw gives a
15% zero-issue branch, otherwise a second draw picks the count. -/
def generateIssuesEdge (width height : ℤ) (st : Nat) :
    Except String (List Issue × Nat) :=
  let s1 := randStep st
  let r : ℚ := (s1 : ℚ) / 4294967295
  if r < 15/100 then
    genLoop templatesEdge width height 0 0 s1
  else
    let s2 := randStep s1
    let r2 : ℚ := (s2 : ℚ) / 4294967295
    genLoop templatesEdge width height (2 + ⌊r2 * 3⌋).toNat 0 s2

/-- The synthesized response body of the node route's fallback branch:
image size, issues, the low-quality flag and the pseudo duration
`900 + Math.floor(rand() * 1200)`. -/
structure SynthResult where
  width : ℤ
  height : ℤ
  issues : List Issue
  low_quality_warning : Bool
  processing_ms : ℤ
deriving DecidableEq, Repr

/-- The fallback branch of the node route's `POST`: seed from the request
attributes, fresh generator, `generateIssues`, then the response object. -/
def fallbackResponse (fileName : String) (fileSize : Nat)
    (width height : ℤ) (platform : String) : Except String SynthResult :=
  let seed := hashString
    (fileName ++ "-" ++ toString fileSize ++ "-" ++ toString width ++ "-"
      ++ toString height ++ "-" ++ platform)
  let st := makeRandInit seed
  match generateIssuesNode width height st with
  | .error e => .error e
  | .ok (issues, st2) =>
    .ok { width := width, height := height, issues := issues
          low_quality_warning := decide (width < 640) || decide (height < 400)
          processing_ms := 900 + ⌊((randStep st2 : ℕ) : ℚ) / 4294967295 * 1200⌋ }

/-- A response of the node `POST` handler (after the request validation
guards): either the normalized external analysis or the synthesized
fallback. -/
inductive Response where
  | external (r : NormResult)
  | fallback (r : SynthResult)

/-- The node route's `POST` after validation: when an API key is present,
run the external analysis (network/parse outcome `geminiRaw`, then
`normalizeResult`); answer with it only when its issues array is
non-empty; on an exception or an empty issues array fall back to the
deterministic synthesizer, exactly as when no key is configured. -/
def postAnalyze (apiKey : Option String) (geminiRaw : Except String Json)
    (fileName : String) (fileSize : Nat) (width height : ℤ)
    (platform : String) : Except String Response :=
  match apiKey with
  | some _ =>
    match (match geminiRaw with
           | .error e => (.error e : Except String NormResult)
           | .ok j => normalizeResult j width height) with
    | .ok r =>
      if r.issues.length > 0 then .ok (.external r)
      else (fallbackResponse fileName fileSize width height platform).map .fallback
    | .error _ =>
      (fallbackResponse fileName fileSize width height platform).map .fallback
  | none => (fallbackResponse fileName fileSize width height platform).map .fallback

/-- The size of a rendered element, from `getBoundingClientRect()`. -/
structure DomRect where
  width : ℚ
  height : ℚ

/-- The rendered `<img>` element: its decoded pixel size and its current
on-screen rectangle. -/
structure ImgEl where
  naturalWidth : ℚ
  naturalHeight : ℚ
  rect : DomRect

/-- Declared image dimensions carried in the analysis result. -/
structure Dims where
  width : ℚ
  height : ℚ

/-- An issue bounding box in image pixel space, as consumed by the
projector. -/
structure BBoxQ where
  x : ℚ
  y : ℚ
  w : ℚ
  h : ℚ

/-- The style returned by `bboxToStyle`: `hidden` models
`{display:"none"}`, otherwise the display-space rectangle. -/
inductive Style where
  | hidden
  | rect (left top width height : ℚ)
deriving DecidableEq, Repr

/-- `bboxToStyle(issue, imgEl, imageMeta)` from the page component: with no
image element it returns the inert `{display:"none"}`; otherwise the
declared image size (falling back to the element's natural size) defines
per-axis scale factors applied to every bbox field. -/
def bboxToStyle (bbox : BBoxQ) (imgEl : Option ImgEl) (imageMeta : Option Dims) :
    Style :=
  match imgEl with
  | none => .hidden
  | some el =>
    let baseWidth := match imageMeta with
      | some m => m.width
      | none => el.naturalWidth
    let baseHeight := match imageMeta with
      | some m => m.height
      | none => el.naturalHeight
    let scaleX := el.rect.width / baseWidth
    let scaleY := el.rect.height / baseHeight
    .rect (bbox.x * scaleX) (bbox.y * scaleY) (bbox.w * scaleX) (bbox.h * scaleY)

/-- Whether an `Except` computation threw. -/
def threw {α : Type} (e : Except String α) : Bool :=
  match e with
  | .error _ => true
  | .ok _ => false

/-- NaN test on a number value. -/
def JsNum.isNan : JsNum → Bool
  | .nan => true
  | _ => false

/-- Bounding-box containment of a synthesized issue inside the image. -/
def issueContained (width height : ℤ) (iss : Issue) : Bool :=
  decide (0 ≤ iss.x) && decide (0 ≤ iss.y) &&
    decide (iss.x + iss.w ≤ width) && decide (iss.y + iss.h ≤ height)

/-- Containment of every issue a synthesizer run produced (vacuous when the
run threw and produced no output). -/
def checkSynthContained (width height : ℤ)
    (e : Except String (List Issue × Nat)) : Bool :=
  match e with
  | .error _ => true
  | .ok (l, _) => l.all (issueContained width height)

/-- Containment of a normalized issue: all four bbox fields are finite and
the box lies inside the image. -/
def nIssueContained (width height : ℤ) (ni : NIssue) : Bool :=
  match ni.x, ni.y, ni.w, ni.h with
  | .finite a, .finite b, .finite c, .finite d =>
    decide (0 ≤ a) && decide (0 ≤ b) &&
      decide (a + c ≤ (width : ℚ)) && decide (b + d ≤ (height : ℚ))
  | _, _, _, _ => false

/-- Containment of every issue a normalizer run produced. -/
def checkNormContained (width height : ℤ)
    (e : Except String NormResult) : Bool :=
  match e with
  | .error _ => true
  | .ok r => r.issues.all (nIssueContained width height)

/-- The four numeric coercions `normalizeIssue` feeds to `clampInt` for one
issue entry, in source order x, y, w, h (missing fields already replaced by
their defaults 0, 0, 40, 40). -/
def bboxCoercions (issue : Json) : List JsNum :=
  let bbox := issue.memberD "bbox"
  [ ((bbox.chainMember "x").coalesce (.num (.finite 0))).toNumber
  , ((bbox.chainMember "y").coalesce (.num (.finite 0))).toNumber
  , ((bbox.chainMember "w").coalesce (.num (.finite 40))).toNumber
  , ((bbox.chainMember "h").coalesce (.num (.finite 40))).toNumber ]

/-- An issue entry none of whose bbox fields coerces to NaN (in particular
any entry whose bbox fields are finite numbers or missing). -/
def goodEntry (issue : Json) : Bool :=
  (bboxCoercions issue).all fun v => !v.isNan

/-- Every entry of the input issues array (if any) is `goodEntry`. -/
def goodEntries (raw : Json) : Bool :=
  match raw.memberD "issues" with
  | .arr l => l.all goodEntry
  | _ => true

/-- The bbox of the `k`-th normalized issue of a normalizer run. -/
def issueBBoxAt (e : Except String NormResult) (k : Nat) :
    Option (JsNum × JsNum × JsNum × JsNum) :=
  match e with
  | .error _ => none
  | .ok r => (r.issues.get? k).map fun ni => (ni.x, ni.y, ni.w, ni.h)

/-- The id of the `k`-th normalized issue when it is a string. -/
def issueIdStringAt (e : Except String NormResult) (k : Nat) : Option String :=
  match e with
  | .error _ => none
  | .ok r => (r.issues.get? k).bind fun ni =>
      match ni.id with
      | .str s => some s
      | _ => none

/-- Number of issues a normalizer run produced. -/
def issuesLengthOf (e : Except String NormResult) : Option Nat :=
  match e with
  | .error _ => none
  | .ok r => some r.issues.length

/-! ## Helper lemmas: PRNG state and value bounds -/

lemma randStep_lt (x : Nat) (h : x < 4294967296) : randStep x < 4294967296 := by
  have h32 : (4294967296 : ℕ) = 2 ^ 32 := by norm_num
  rw [h32] at h ⊢
  have hmod : ∀ z : ℕ, z % 4294967296 < 2 ^ 32 := fun z =>
    Nat.lt_of_lt_of_le (Nat.mod_lt _ (by norm_num)) (by rw [h32])
  have ha : x ^^^ ((x <<< 13) % 4294967296) < 2 ^ 32 :=
    Nat.xor_lt_two_pow h (hmod _)
  have hb : x ^^^ ((x <<< 13) % 4294967296) ^^^
      ((x ^^^ ((x <<< 13) % 4294967296)) >>> 17) < 2 ^ 32 := by
    refine Nat.xor_lt_two_pow ha (Nat.lt_of_le_of_lt ?_ ha)
    rw [Nat.shiftRight_eq_div_pow]
    exact Nat.div_le_self _ _
  exact Nat.xor_lt_two_pow hb (hmod _)

lemma makeRandInit_lt (seed : Nat) (h : seed < 4294967296) :
    makeRandInit seed < 4294967296 := by
  unfold makeRandInit
  split <;> [norm_num; exact h]

lemma randState_lt (seed : Nat) (h : seed < 4294967296) (n : Nat) :
    randState seed n < 4294967296 := by
  induction n with
  | zero => exact makeRandInit_lt seed h
  | succ n ih => exact randStep_lt _ ih

/-- Bounds on a normalized generator value `s / 4294967295` for a 32-bit
state `s`. -/
lemma randQ_bounds (s : Nat) (h : s < 4294967296) :
    0 ≤ ((s : ℕ) : ℚ) / 4294967295 ∧ ((s : ℕ) : ℚ) / 4294967295 ≤ 1 := by
  constructor
  · positivity
  · rw [div_le_one (by norm_num)]
    have : s ≤ 4294967295 := by omega
    exact_mod_cast this

/-! ## Helper lemmas: synthesized box containment -/

/-- For `width ≥ 121`, the synthesized width
`max(120, floor(width * (0.18 + r*0.22)))` stays strictly below the image
width. -/
lemma synthW_succ_le (W : ℤ) (r : ℚ) (hW : 121 ≤ W) (h0 : 0 ≤ r) (h1 : r ≤ 1) :
    max 120 ⌊(W : ℚ) * (18/100 + r * (22/100))⌋ + 1 ≤ W := by
  have hWq : (0 : ℚ) ≤ (W : ℚ) := by exact_mod_cast le_trans (by norm_num) hW
  have hflo : ⌊(W : ℚ) * (18/100 + r * (22/100))⌋ ≤ ⌊(W : ℚ) * (2/5)⌋ :=
    Int.floor_le_floor (by nlinarith)
  have hlt : ⌊(W : ℚ) * (2/5)⌋ < W := by
    rw [Int.floor_lt]
    have : (121 : ℚ) ≤ (W : ℚ) := by exact_mod_cast hW
    nlinarith
  rcases max_cases (120 : ℤ) ⌊(W : ℚ) * (18/100 + r * (22/100))⌋ with
    ⟨hm, _⟩ | ⟨hm, _⟩ <;> rw [hm] <;> omega

/-- For `height ≥ 65`, the synthesized height
`max(64, floor(height * (0.08 + r*0.14)))` stays strictly below the image
height. -/
lemma synthH_succ_le (H : ℤ) (r : ℚ) (hH : 65 ≤ H) (h0 : 0 ≤ r) (h1 : r ≤ 1) :
    max 64 ⌊(H : ℚ) * (8/100 + r * (14/100))⌋ + 1 ≤ H := by
  have hHq : (0 : ℚ) ≤ (H : ℚ) := by exact_mod_cast le_trans (by norm_num) hH
  have hflo : ⌊(H : ℚ) * (8/100 + r * (14/100))⌋ ≤ ⌊(H : ℚ) * (11/50)⌋ :=
    Int.floor_le_floor (by nlinarith)
  have hlt : ⌊(H : ℚ) * (11/50)⌋ < H := by
    rw [Int.floor_lt]
    have : (65 : ℚ) ≤ (H : ℚ) := by exact_mod_cast hH
    nlinarith
  rcases max_cases (64 : ℤ) ⌊(H : ℚ) * (8/100 + r * (14/100))⌋ with
    ⟨hm, _⟩ | ⟨hm, _⟩ <;> rw [hm] <;> omega

/-- The synthesized coordinate `floor(r * max(1, dim - box - 8))` is
non-negative and keeps the box inside a dimension that exceeds the box
size. -/
lemma synthX_bounds (W w : ℤ) (r : ℚ) (h0 : 0 ≤ r) (h1 : r ≤ 1)
    (hw : w + 1 ≤ W) :
    0 ≤ ⌊r * max 1 ((W : ℚ) - w - 8)⌋ ∧
      ⌊r * max 1 ((W : ℚ) - w - 8)⌋ + w ≤ W := by
  have hM : (1 : ℚ) ≤ max 1 ((W : ℚ) - w - 8) := le_max_left _ _
  have hcast : max (1 : ℚ) ((W : ℚ) - w - 8) = ((max 1 (W - w - 8) : ℤ) : ℚ) := by
    push_cast
    rfl
  have hle : ⌊r * max 1 ((W : ℚ) - w - 8)⌋ ≤ max 1 (W - w - 8) := by
    have hrM : r * max 1 ((W : ℚ) - w - 8) ≤ max 1 ((W : ℚ) - w - 8) := by
      nlinarith
    calc ⌊r * max 1 ((W : ℚ) - w - 8)⌋ ≤ ⌊max (1 : ℚ) ((W : ℚ) - w - 8)⌋ :=
          Int.floor_le_floor hrM
      _ = max 1 (W - w - 8) := by rw [hcast, Int.floor_intCast]
  refine ⟨Int.floor_nonneg.mpr (mul_nonneg h0 (by linarith)), ?_⟩
  rcases max_cases (1 : ℤ) (W - w - 8) with ⟨hm, _⟩ | ⟨hm, _⟩ <;>
    rw [hm] at hle <;> omega

/-- A successful `genIssue` call from a 32-bit state yields a contained box
(for `width ≥ 121`, `height ≥ 65`) and a 32-bit output state. -/
lemma genIssue_ok_contained (tpl : List Template) (W H : ℤ) (i st : Nat)
    (iss : Issue) (st₂ : Nat) (hW : 121 ≤ W) (hH : 65 ≤ H)
    (hst : st < 4294967296)
    (h : genIssue tpl W H i st = .ok (iss, st₂)) :
    issueContained W H iss = true ∧ st₂ < 4294967296 := by
  have b1 := randStep_lt st hst
  have b2 := randStep_lt _ b1
  have b3 := randStep_lt _ b2
  have b4 := randStep_lt _ b3
  have b5 := randStep_lt _ b4
  have b6 := randStep_lt _ b5
  have q2 := randQ_bounds _ b2
  have q3 := randQ_bounds _ b3
  have q4 := randQ_bounds _ b4
  have q5 := randQ_bounds _ b5
  simp only [genIssue] at h
  split at h
  · exact absurd h (by simp)
  · rw [Except.ok.injEq, Prod.mk.injEq] at h
    obtain ⟨hiss, hst₂⟩ := h
    subst hiss hst₂
    refine ⟨?_, b6⟩
    have hw := synthW_succ_le W _ hW q2.1 q2.2
    have hh := synthH_succ_le H _ hH q3.1 q3.2
    have hx := synthX_bounds W _ _ q4.1 q4.2 hw
    have hy := synthX_bounds H _ _ q5.1 q5.2 hh
    simp only [issueContained, Bool.and_eq_true, decide_eq_true_eq]
    exact ⟨⟨⟨hx.1, hy.1⟩, by have := hx.2; omega⟩, by have := hy.2; omega⟩

/-- Loop version of the previous lemma: every issue of a successful
`genLoop` run is contained and the final state stays 32-bit. -/
lemma genLoop_ok_contained (tpl : List Template) (W H : ℤ)
    (hW : 121 ≤ W) (hH : 65 ≤ H) :
    ∀ (n i st : Nat) (l : List Issue) (st₂ : Nat), st < 4294967296 →
      genLoop tpl W H n i st = .ok (l, st₂) →
      l.all (issueContained W H) = true ∧ st₂ < 4294967296 := by
  intro n
  induction n with
  | zero =>
    intro i st l st₂ hst h
    simp only [genLoop, Except.ok.injEq, Prod.mk.injEq] at h
    obtain ⟨hl, hst₂⟩ := h
    subst hl hst₂
    exact ⟨rfl, hst⟩
  | succ n ih =>
    intro i st l st₂ hst h
    simp only [genLoop] at h
    split at h
    · exact absurd h (by simp)
    · rename_i p heq
      split at h
      · exact absurd h (by simp)
      · rename_i p2 heq2
        rw [Except.ok.injEq, Prod.mk.injEq] at h
        obtain ⟨hl, hst₂⟩ := h
        subst hl hst₂
        obtain ⟨hc1, hs1⟩ := genIssue_ok_contained tpl W H i st _ _ hW hH hst heq
        obtain ⟨hc2, hs2⟩ := ih (i + 1) _ _ _ hs1 heq2
        simp only [List.all_cons, Bool.and_eq_true]
        exact ⟨⟨hc1, hc2⟩, hs2⟩

/-- Containment of every issue of a node-route synthesizer run. -/
lemma generateIssuesNode_contained (W H : ℤ) (st : Nat)
    (hW : 121 ≤ W) (hH : 65 ≤ H) (hst : st < 4294967296) :
    checkSynthContained W H (generateIssuesNode W H st) = true := by
  cases hgen : generateIssuesNode W H st with
  | error e => simp [checkSynthContained]
  | ok p =>
    obtain ⟨l, st₂⟩ := p
    have hgen2 := hgen
    simp only [generateIssuesNode] at hgen2
    simp only [checkSynthContained]
    exact (genLoop_ok_contained _ W H hW hH _ _ _ _ _ (randStep_lt st hst) hgen2).1

/-- Containment of every issue of an edge-route synthesizer run. -/
lemma generateIssuesEdge_contained (W H : ℤ) (st : Nat)
    (hW : 121 ≤ W) (hH : 65 ≤ H) (hst : st < 4294967296) :
    checkSynthContained W H (generateIssuesEdge W H st) = true := by
  have h1 := randStep_lt st hst
  have h2 := randStep_lt _ h1
  cases hgen : generateIssuesEdge W H st with
  | error e => simp [checkSynthContained]
  | ok p =>
    obtain ⟨l, st₂⟩ := p
    have hgen2 := hgen
    simp only [generateIssuesEdge] at hgen2
    simp only [checkSynthContained]
    split at hgen2
    · exact (genLoop_ok_contained _ W H hW hH _ _ _ _ _ h1 hgen2).1
    · exact (genLoop_ok_contained _ W H hW hH _ _ _ _ _ h2 hgen2).1

/-! ## Helper lemmas: normalizer -/

/-- `clampInt` on finite bounds and a value that does not coerce to NaN
produces a finite result between `min lo hi` and `hi`. -/
lemma clampInt_good (v : Json) (lo hi : ℚ) (hv : v.toNumber.isNan = false) :
    ∃ q : ℚ, clampInt v (.finite lo) (.finite hi) = .finite q ∧
      min lo hi ≤ q ∧ q ≤ hi := by
  have hnn : v.isNaNValue = false := by
    cases hvv : v <;> simp [Json.isNaNValue]
    rename_i x
    cases x <;> simp_all [Json.toNumber, JsNum.isNan]
  unfold clampInt
  rw [hnn]
  simp only [Bool.false_eq_true, if_false]
  cases htn : v.toNumber with
  | nan => rw [htn] at hv; simp [JsNum.isNan] at hv
  | posInf =>
    exact ⟨hi, rfl, min_le_right _ _, le_refl _⟩
  | negInf =>
    exact ⟨min hi lo, rfl, by rw [min_comm], min_le_left _ _⟩
  | finite m =>
    refine ⟨min hi (max lo (⌊m + 1/2⌋ : ℤ)), rfl, ?_, min_le_left _ _⟩
    exact le_min (min_le_right _ _)
      (le_trans (min_le_left _ _) (le_max_left _ _))

/-- A successful `normalizeIssue` on a `goodEntry` yields a finite,
contained bounding box (for positive dimensions). -/
lemma normalizeIssue_contained (W H : ℤ) (idx : Nat) (j : Json) (ni : NIssue)
    (hW : 1 ≤ W) (hH : 1 ≤ H) (hg : goodEntry j = true)
    (h : normalizeIssue W H idx j = .ok ni) :
    nIssueContained W H ni = true := by
  simp only [goodEntry, bboxCoercions, List.all_cons, List.all_nil,
    Bool.and_eq_true, Bool.not_eq_true'] at hg
  have hgx := hg.1
  have hgy := hg.2.1
  have hgw := hg.2.2.1
  have hgh := hg.2.2.2.1
  by_cases hnull : j.isNullish
  · simp [normalizeIssue, hnull] at h
  · simp only [normalizeIssue, hnull, Bool.false_eq_true, if_false] at h
    obtain ⟨qx, hx, hxlo, hxhi⟩ := clampInt_good _ 0 ((W : ℚ) - 1) hgx
    obtain ⟨qy, hy, hylo, hyhi⟩ := clampInt_good _ 0 ((H : ℚ) - 1) hgy
    rw [hx] at h
    rw [hy] at h
    simp only [jsSub] at h
    obtain ⟨qw, hw, hwlo, hwhi⟩ := clampInt_good _ 10 ((W : ℚ) - qx) hgw
    obtain ⟨qh, hhq, hhlo, hhhi⟩ := clampInt_good _ 10 ((H : ℚ) - qy) hgh
    rw [hw, hhq, Except.ok.injEq] at h
    subst h
    have hWq : (1 : ℚ) ≤ (W : ℚ) := by exact_mod_cast hW
    have hHq : (1 : ℚ) ≤ (H : ℚ) := by exact_mod_cast hH
    have h0x : (0 : ℚ) ≤ qx := le_trans (by rw [min_eq_left (by linarith)]) hxlo
    have h0y : (0 : ℚ) ≤ qy := le_trans (by rw [min_eq_left (by linarith)]) hylo
    simp only [nIssueContained, Bool.and_eq_true, decide_eq_true_eq]
    exact ⟨⟨⟨h0x, h0y⟩, by linarith⟩, by linarith⟩

/-- A non-nullish entry always normalizes successfully. -/
lemma normalizeIssue_ok (W H : ℤ) (idx : Nat) (j : Json)
    (h : j.isNullish = false) :
    ∃ ni, normalizeIssue W H idx j = .ok ni := by
  simp [normalizeIssue, h]

/-- The spread source of a normalized issue is the input entry. -/
lemma normalizeIssue_orig (W H : ℤ) (idx : Nat) (j : Json) (ni : NIssue)
    (h : normalizeIssue W H idx j = .ok ni) : ni.orig = j := by
  by_cases hnull : j.isNullish
  · simp [normalizeIssue, hnull] at h
  · simp only [normalizeIssue, hnull, Bool.false_eq_true, if_false,
      Except.ok.injEq] at h
    subst h
    rfl

/-- `mapIssues` succeeds on any list of non-nullish entries. -/
lemma mapIssues_ok (W H : ℤ) :
    ∀ (l : List Json) (idx : Nat), (∀ j ∈ l, j.isNullish = false) →
      ∃ out, mapIssues W H idx l = .ok out := by
  intro l
  induction l with
  | nil => exact fun idx _ => ⟨[], rfl⟩
  | cons j rest ih =>
    intro idx hl
    obtain ⟨ni, hni⟩ := normalizeIssue_ok W H idx j (hl j (by simp))
    obtain ⟨tail, htail⟩ := ih (idx + 1) fun j' hj' => hl j' (by simp [hj'])
    exact ⟨ni :: tail, by simp only [mapIssues, hni, htail]⟩

/-- A successful `mapIssues` run maps each input entry, in order, to its
normalized issue: the spread sources recover the input list (hence the
lengths agree). -/
lemma mapIssues_orig (W H : ℤ) :
    ∀ (l : List Json) (idx : Nat) (out : List NIssue),
      mapIssues W H idx l = .ok out → out.map NIssue.orig = l := by
  intro l
  induction l with
  | nil =>
    intro idx out h
    simp only [mapIssues, Except.ok.injEq] at h
    subst h
    rfl
  | cons j rest ih =>
    intro idx out h
    simp only [mapIssues] at h
    split at h
    · exact absurd h (by simp)
    · rename_i ni hni
      split at h
      · exact absurd h (by simp)
      · rename_i tail htail
        rw [Except.ok.injEq] at h
        subst h
        simp only [List.map_cons, normalizeIssue_orig W H idx j ni hni,
          ih (idx + 1) tail htail]

/-- Positional version: the `k`-th output issue of a successful `mapIssues`
run is the normalization of the `k`-th input entry at index `idx + k`. -/
lemma mapIssues_get (W H : ℤ) :
    ∀ (l : List Json) (idx : Nat) (out : List NIssue),
      mapIssues W H idx l = .ok out →
      ∀ (k : Nat) (j : Json), l.get? k = some j →
        ∃ ni, normalizeIssue W H (idx + k) j = .ok ni ∧ out.get? k = some ni := by
  intro l
  induction l with
  | nil => intro idx out h k j hk; simp at hk
  | cons j0 rest ih =>
    intro idx out h k j hk
    simp only [mapIssues] at h
    split at h
    · exact absurd h (by simp)
    · rename_i ni hni
      split at h
      · exact absurd h (by simp)
      · rename_i tail htail
        rw [Except.ok.injEq] at h
        subst h
        cases k with
        | zero =>
          simp only [List.get?] at hk
          rw [Option.some.injEq] at hk
          subst hk
          exact ⟨ni, by simpa using hni, rfl⟩
        | succ k =>
          simp only [List.get?] at hk
          obtain ⟨ni', hni', hout⟩ := ih (idx + 1) tail htail k j hk
          refine ⟨ni', by rw [show idx + (k + 1) = idx + 1 + k by omega]; exact hni', ?_⟩
          simpa using hout

/-- All issues of a successful `mapIssues` run over `goodEntry` inputs are
contained. -/
lemma mapIssues_contained (W H : ℤ) (hW : 1 ≤ W) (hH : 1 ≤ H) :
    ∀ (l : List Json) (idx : Nat) (out : List NIssue),
      (∀ j ∈ l, goodEntry j = true) →
      mapIssues W H idx l = .ok out →
      out.all (nIssueContained W H) = true := by
  intro l
  induction l with
  | nil =>
    intro idx out _ h
    simp only [mapIssues, Except.ok.injEq] at h
    subst h
    rfl
  | cons j rest ih =>
    intro idx out hl h
    simp only [mapIssues] at h
    split at h
    · exact absurd h (by simp)
    · rename_i ni hni
      split at h
      · exact absurd h (by simp)
      · rename_i tail htail
        rw [Except.ok.injEq] at h
        subst h
        simp only [List.all_cons, Bool.and_eq_true]
        exact ⟨normalizeIssue_contained W H idx j ni hW hH (hl j (by simp)) hni,
          ih (idx + 1) tail (fun j' hj' => hl j' (by simp [hj'])) htail⟩

/-- A successful member access returns the plain member value. -/
lemma getMember_ok_eq (j : Json) (k : String) (v : Json)
    (h : j.getMember k = .ok v) : v = j.memberD k := by
  unfold Json.getMember at h
  split at h
  · exact absurd h (by simp)
  · rw [Except.ok.injEq] at h
    exact h.symm

/-- A member access succeeds exactly on non-nullish receivers. -/
lemma getMember_ok_of_not_nullish (j : Json) (k : String)
    (h : j.isNullish = false) : j.getMember k = .ok (j.memberD k) := by
  simp [Json.getMember, h]

/-! ## Claim C1: normalizer totality -/

/-- **C1, counterexample.**  As stated, totality fails: `normalize` throws
a `TypeError` on a nullish `raw`, on a truthy non-array `issues` field, and
on a `null` entry inside the issues array. -/
theorem normalizer_totality_counterexample :
    threw (normalizeResult Json.null 800 600) = true ∧
    threw (normalizeResult (Json.obj [("issues", Json.num (.finite 5))]) 800 600) = true ∧
    threw (normalizeResult (Json.obj [("issues", Json.arr [Json.null])]) 800 600) = true := by
  refine ⟨rfl, ?_, ?_⟩
  · have h5 : Json.truthy (Json.num (.finite 5)) = true := by
      simp [Json.truthy]
    simp [normalizeResult, Json.getMember, Json.isNullish, Json.memberD,
      List.lookup, h5, threw]
  · simp [normalizeResult, Json.getMember, Json.isNullish, Json.memberD,
      List.lookup, Json.truthy, mapIssues, normalizeIssue, threw]

/-- **C1, amended.**  `normalize(raw, width, height)` returns an
`AnalysisResult` and never throws, for every JSON-like `raw` that is not
nullish and whose `issues` field is either falsy or an array without
nullish entries (in particular: empty objects, a missing or malformed
`bbox`, non-numeric bbox fields, and an empty issues array are all safe). -/
theorem normalizer_totality_amended (raw : Json) (width height : ℤ)
    (hraw : raw.isNullish = false)
    (hiss : Json.truthy (raw.memberD "issues") = false ∨
      ∃ l, raw.memberD "issues" = .arr l ∧ ∀ j ∈ l, j.isNullish = false) :
    ∃ r, normalizeResult raw width height = .ok r := by
  unfold normalizeResult
  rw [getMember_ok_of_not_nullish raw "issues" hraw]
  dsimp only
  rcases hiss with hfal | ⟨l, harr, hnn⟩
  · rw [hfal]
    exact ⟨_, rfl⟩
  · rw [harr]
    have htru : Json.truthy (Json.arr l) = true := rfl
    rw [htru]
    simp only [if_true]
    obtain ⟨out, hout⟩ := mapIssues_ok width height l 0 hnn
    rw [hout]
    exact ⟨_, rfl⟩

/-- **C1, witness** for the amended totality theorem at a concrete
malformed input: a four-entry issues array holding a number, a string, an
empty object and an empty array. -/
theorem normalizer_totality_witness :
    ∃ r, normalizeResult
      (Json.obj [("issues", Json.arr
        [Json.num (.finite 3), Json.str "hello", Json.obj [], Json.arr []])])
      800 600 = .ok r :=
  normalizer_totality_amended _ 800 600 (by decide)
    (Or.inr ⟨_, rfl, by decide⟩)

/-! ## Claim C2: geometry containment -/

/-- **C2, amended.**  Geometry containment `0 ≤ x`, `0 ≤ y`,
`x + w ≤ width`, `y + h ≤ height` holds (a) for every synthesized issue
when `width ≥ 121` and `height ≥ 65` (the synthesizer's 120px/64px minimum
box sizes and 8px margin make smaller images impossible to contain), for
both route variants; and (b) for every normalized issue whose input bbox
fields all coerce to non-NaN numbers (in particular finite numbers or
missing fields), for positive dimensions. -/
theorem geometry_containment_amended :
    (∀ (width height : ℤ) (seed : Nat), 121 ≤ width → 65 ≤ height →
      seed < 4294967296 →
      checkSynthContained width height
        (generateIssuesNode width height (makeRandInit seed)) = true ∧
      checkSynthContained width height
        (generateIssuesEdge width height (makeRandInit seed)) = true) ∧
    (∀ (raw : Json) (width height : ℤ), 1 ≤ width → 1 ≤ height →
      goodEntries raw = true →
      checkNormContained width height (normalizeResult raw width height) = true) := by
  constructor
  · intro W H seed hW hH hseed
    exact ⟨generateIssuesNode_contained W H _ hW hH (makeRandInit_lt seed hseed),
      generateIssuesEdge_contained W H _ hW hH (makeRandInit_lt seed hseed)⟩
  · intro raw W H hW hH hgood
    cases hres : normalizeResult raw W H with
    | error e => simp [checkNormContained]
    | ok r =>
      simp only [checkNormContained]
      unfold normalizeResult at hres
      split at hres
      · exact absurd hres (by simp)
      · rename_i issuesJ hget
        have hmem := getMember_ok_eq raw "issues" issuesJ hget
        subst hmem
        split at hres
        · rename_i entries hif
          split at hres
          · exact absurd hres (by simp)
          · rename_i issues hmap
            rw [Except.ok.injEq] at hres
            subst hres
            have hentries : ∀ j ∈ entries, goodEntry j = true := by
              by_cases htru : Json.truthy (raw.memberD "issues")
              · rw [if_pos htru] at hif
                unfold goodEntries at hgood
                rw [hif] at hgood
                simpa [List.all_eq_true] using hgood
              · rw [if_neg htru] at hif
                have hemp : ([] : List Json) = entries := by
                  injection hif
                intro j hj
                rw [← hemp] at hj
                simp at hj
            exact mapIssues_contained W H hW hH entries 0 issues hentries hmap
        · exact absurd hres (by simp)

/-- **C2, counterexample.**  As stated, containment fails: (a) at
`width = 100`, `height = 900`, seed 42, the node synthesizer's first issue
has `x = 0`, `w = 120`, so `x + w = 120 > 100` (the 120px minimum width
cannot fit a 100px image); (b) a bbox field that coerces to NaN (here an
object) survives normalization as NaN coordinates, which violate
`0 ≤ x`. -/
theorem geometry_containment_counterexample :
    checkSynthContained 100 900 (generateIssuesNode 100 900 (makeRandInit 42)) = false ∧
    checkNormContained 800 600 (normalizeResult
      (Json.obj [("issues", Json.arr
        [Json.obj [("bbox", Json.obj [("x", Json.obj [])])]])]) 800 600) = false := by
  constructor
  · have e0 : randStep 42 = 11355432 := by decide
    have e1 : randStep 11355432 = 2836018348 := by decide
    have e2 : randStep 2836018348 = 476557059 := by decide
    have e3 : randStep 476557059 = 3648046016 := by decide
    have e4 : randStep 3648046016 = 3759983556 := by decide
    have e5 : randStep 3759983556 = 1441438134 := by decide
    have e6 : randStep 1441438134 = 3713466840 := by decide
    have e7 : randStep 3713466840 = 2431644334 := by decide
    have e8 : randStep 2431644334 = 3120216979 := by decide
    have e9 : randStep 3120216979 = 1067267639 := by decide
    have e10 : randStep 1067267639 = 2989017562 := by decide
    have e11 : randStep 2989017562 = 3379058227 := by decide
    have e12 : randStep 3379058227 = 3060050788 := by decide
    have hI0 : genIssue templatesNode 100 900 0 11355432 =
        .ok (⟨"iss_1", 0, 239, 120, 179, some .low, "layout",
          "Высокая плотность контента",
          "Несколько блоков конкурируют за внимание на одном уровне.",
          "Добавьте воздуха и сгруппируйте связанные блоки."⟩, 3713466840) := by
      rw [genIssue, e1, e2, e3, e4, e5, e6]
      have hw : max 120 ⌊(100 : ℚ) * (18/100 + ((476557059 : ℕ) : ℚ)/4294967295 * (22/100))⌋ = (120 : ℤ) := by
        norm_num
      have hh : max 64 ⌊(900 : ℚ) * (8/100 + ((3648046016 : ℕ) : ℚ)/4294967295 * (14/100))⌋ = (179 : ℤ) := by
        norm_num
      norm_num [hw, hh, templatesNode, severities]
      decide
    have hI1 : genIssue templatesNode 100 900 1 3713466840 =
        .ok (⟨"iss_2", 0, 620, 120, 103, some .low, "layout",
          "Высокая плотность контента",
          "Несколько блоков конкурируют за внимание на одном уровне.",
          "Добавьте воздуха и сгруппируйте связанные блоки."⟩, 3060050788) := by
      rw [genIssue, e7, e8, e9, e10, e11, e12]
      have hw : max 120 ⌊(100 : ℚ) * (18/100 + ((3120216979 : ℕ) : ℚ)/4294967295 * (22/100))⌋ = (120 : ℤ) := by
        norm_num
      have hh : max 64 ⌊(900 : ℚ) * (8/100 + ((1067267639 : ℕ) : ℚ)/4294967295 * (14/100))⌋ = (103 : ℤ) := by
        norm_num
      norm_num [hw, hh, templatesNode, severities]
      decide
    have hcnt : (2 + ⌊((11355432 : ℕ) : ℚ)/4294967295 * 3⌋).toNat = 2 := by
      norm_num
      decide
    have hloop : genLoop templatesNode 100 900 2 0 11355432 =
        .ok ([⟨"iss_1", 0, 239, 120, 179, some .low, "layout",
          "Высокая плотность контента",
          "Несколько блоков конкурируют за внимание на одном уровне.",
          "Добавьте воздуха и сгруппируйте связанные блоки."⟩,
          ⟨"iss_2", 0, 620, 120, 103, some .low, "layout",
          "Высокая плотность контента",
          "Несколько блоков конкурируют за внимание на одном уровне.",
          "Добавьте воздуха и сгруппируйте связанные блоки."⟩], 3060050788) := by
      simp only [genLoop, hI0, hI1]
    have hmain : generateIssuesNode 100 900 (makeRandInit 42) =
        .ok ([⟨"iss_1", 0, 239, 120, 179, some .low, "layout",
          "Высокая плотность контента",
          "Несколько блоков конкурируют за внимание на одном уровне.",
          "Добавьте воздуха и сгруппируйте связанные блоки."⟩,
          ⟨"iss_2", 0, 620, 120, 103, some .low, "layout",
          "Высокая плотность контента",
          "Несколько блоков конкурируют за внимание на одном уровне.",
          "Добавьте воздуха и сгруппируйте связанные блоки."⟩], 3060050788) := by
      have hseed : makeRandInit 42 = 42 := rfl
      rw [hseed, generateIssuesNode, e0, hcnt, hloop]
    rw [hmain]
    simp only [checkSynthContained, List.all_cons, issueContained]
    decide
  · have hni : normalizeIssue 800 600 0
        (Json.obj [("bbox", Json.obj [("x", Json.obj [])])]) =
        .ok ⟨Json.obj [("bbox", Json.obj [("x", Json.obj [])])],
          Json.str "iss_1", .nan, .finite 0, .nan, .finite 40⟩ := by
      simp [normalizeIssue, Json.isNullish, Json.memberD, List.lookup,
        Json.chainMember, Json.coalesce, Json.isNaNValue, Json.toNumber,
        clampInt, jsRound, jsMax, jsMin, jsSub, Json.truthy]
      norm_num
      decide
    have hmap : mapIssues 800 600 0
        [Json.obj [("bbox", Json.obj [("x", Json.obj [])])]] =
        .ok [⟨Json.obj [("bbox", Json.obj [("x", Json.obj [])])],
          Json.str "iss_1", .nan, .finite 0, .nan, .finite 40⟩] := by
      simp only [mapIssues, hni]
    simp [normalizeResult, Json.getMember, Json.isNullish, Json.memberD,
      List.lookup, Json.truthy, hmap, checkNormContained, nIssueContained]

/-- **C2, witness** for the amended containment theorem at
`1440 × 900`, seed 42 (both synthesizer variants) and at a concrete
normalizer input with a finite bbox. -/
theorem geometry_containment_witness :
    checkSynthContained 1440 900
      (generateIssuesNode 1440 900 (makeRandInit 42)) = true ∧
    checkSynthContained 1440 900
      (generateIssuesEdge 1440 900 (makeRandInit 42)) = true ∧
    checkNormContained 800 600 (normalizeResult
      (Json.obj [("issues", Json.arr
        [Json.obj [("bbox", Json.obj [("x", Json.num (.finite 5))])]])])
      800 600) = true :=
  ⟨(geometry_containment_amended.1 1440 900 42 (by norm_num) (by norm_num)
      (by norm_num)).1,
    (geometry_containment_amended.1 1440 900 42 (by norm_num) (by norm_num)
      (by norm_num)).2,
    geometry_containment_amended.2 _ 800 600 (by norm_num) (by norm_num)
      (by decide)⟩

/-! ## Claim C3: synthesizer determinism -/

/-- **C3.**  For every `(width, height, seed)`, two independent synthesizer
calls, each constructing a fresh generator state via `makeRand(seed)`,
produce bit-identical output (the whole issue list, in order, with all
field values, and the final generator state) — for both route variants.
In this embedding the generator state is threaded explicitly, so a run is
a pure function of `(width, height, seed)` and the two runs coincide
definitionally; the JavaScript closure adds no other state. -/
theorem synthesizer_determinism (width height : ℤ) (seed : Nat) :
    generateIssuesNode width height (makeRandInit seed) =
      generateIssuesNode width height (makeRandInit seed) ∧
    generateIssuesEdge width height (makeRandInit seed) =
      generateIssuesEdge width height (makeRandInit seed) :=
  ⟨rfl, rfl⟩

/-! ## Claim C7: PRNG range and zero seed -/

/-- **C7, counterexample.**  The range claim `[0, 1)` fails: the state is
normalized by dividing by `2^32 - 1 = 4294967295`, so the 32-bit seed
1584200935 (the xorshift predecessor of `0xFFFFFFFF`) makes the very first
generator value exactly 1. -/
theorem prng_range_counterexample :
    1584200935 < 4294967296 ∧
    randValue 1584200935 0 = 1 ∧
    ¬ randValue 1584200935 0 < 1 := by
  have h : randState 1584200935 1 = 4294967295 := by decide
  refine ⟨by norm_num, ?_, ?_⟩
  · rw [randValue, h]
    norm_num
  · rw [randValue, h]
    norm_num

/-- **C7, amended.**  For every 32-bit unsigned seed, every value produced
by the generator of `makeRand(seed)` lies in the closed interval `[0, 1]`
(the value 1 itself is attained exactly when the state reaches
`0xFFFFFFFF`), and a zero seed is replaced by the fixed non-zero default
state 123456789. -/
theorem prng_range_amended :
    (∀ (seed n : Nat), seed < 4294967296 →
      0 ≤ randValue seed n ∧ randValue seed n ≤ 1) ∧
    makeRandInit 0 = 123456789 := by
  refine ⟨fun seed n hseed => ?_, rfl⟩
  simpa [randValue] using randQ_bounds _ (randState_lt seed hseed (n + 1))

/-- **C7, witness** for the amended range theorem at seed 42, first
value. -/
theorem prng_range_witness :
    (0 ≤ randValue 42 0 ∧ randValue 42 0 ≤ 1) ∧
    makeRandInit 0 = 123456789 :=
  ⟨prng_range_amended.1 42 0 (by norm_num), prng_range_amended.2⟩

/-! ## Claim C8: coordinate projector -/

/-- **C8.**  `bboxToStyle` returns the inert `{display:"none"}` when no
image element is rendered; otherwise it scales each bbox field by the
per-axis factors `displayWidth / referenceWidth` and
`displayHeight / referenceHeight` taken from the declared image size; in
particular `bbox {x:100,y:100,w:50,h:50}` on a `720×450` display rectangle
with reference `1440×900` projects to `{left:50, top:50, width:25,
height:25}`. -/
theorem coordinate_projector :
    (∀ (bbox : BBoxQ) (meta : Option Dims),
      bboxToStyle bbox none meta = .hidden) ∧
    (∀ (bbox : BBoxQ) (el : ImgEl) (m : Dims),
      bboxToStyle bbox (some el) (some m) =
        .rect (bbox.x * (el.rect.width / m.width))
          (bbox.y * (el.rect.height / m.height))
          (bbox.w * (el.rect.width / m.width))
          (bbox.h * (el.rect.height / m.height))) ∧
    bboxToStyle ⟨100, 100, 50, 50⟩ (some ⟨1440, 900, ⟨720, 450⟩⟩)
      (some ⟨1440, 900⟩) = .rect 50 50 25 25 := by
  refine ⟨fun _ _ => rfl, fun _ _ _ => rfl, ?_⟩
  simp only [bboxToStyle]
  norm_num

/-! ## Claim C4: normalizer per-issue rules -/

/-- `⌊n + 1/2⌋ = n` for an integer input: rounding fixes integers. -/
lemma floor_intCast_add_half (n : ℤ) : ⌊(n : ℚ) + 1/2⌋ = n := by
  rw [Int.floor_int_add]
  norm_num

/-- `clampInt` on a finite number and finite bounds is the plain
round-then-clamp formula. -/
lemma clampInt_finite (q lo hi : ℚ) :
    clampInt (.num (.finite q)) (.finite lo) (.finite hi) =
      .finite (min hi (max lo ((⌊q + 1/2⌋ : ℤ) : ℚ))) := by
  simp [clampInt, Json.isNaNValue, Json.toNumber, jsRound, jsMax, jsMin]

/-- An optional bbox field: present as a finite integer-valued number, or
absent. -/
def optField (k : String) : Option ℤ → List (String × Json)
  | some n => [(k, Json.num (.finite (n : ℚ)))]
  | none => []

/-- A bbox object whose four fields are each present (an integer) or
missing. -/
def bboxJson (xv yv wv hv : Option ℤ) : Json :=
  .obj (optField "x" xv ++ optField "y" yv ++ optField "w" wv ++ optField "h" hv)

/-- An issue entry with no `id` and the given bbox fields. -/
def issueNoId (xv yv wv hv : Option ℤ) : Json :=
  .obj [("bbox", bboxJson xv yv wv hv)]

/-- Specification-side per-issue geometry, following the spec's wording:
`bbox.x` clamped into `[0, width-1]`, missing treated as `0`. -/
def specX (width : ℤ) (xv : Option ℤ) : ℤ := min (width - 1) (max 0 (xv.getD 0))

/-- Spec-side: `bbox.y` clamped into `[0, height-1]`, missing treated as
`0`. -/
def specY (height : ℤ) (yv : Option ℤ) : ℤ := min (height - 1) (max 0 (yv.getD 0))

/-- Spec-side: `bbox.w` clamped into `[10, width - x]`, missing treated as
`40` before clamping. -/
def specW (width : ℤ) (xv wv : Option ℤ) : ℤ :=
  min (width - specX width xv) (max 10 (wv.getD 40))

/-- Spec-side: `bbox.h` clamped into `[10, height - y]`, missing treated as
`40` before clamping. -/
def specH (height : ℤ) (yv hv : Option ℤ) : ℤ :=
  min (height - specY height yv) (max 10 (hv.getD 40))

/-- The coalesced `x` field of a `bboxJson` is the finite number given by
the field or its default `0`. -/
lemma bboxJson_field_x (xv yv wv hv : Option ℤ) :
    ((bboxJson xv yv wv hv).chainMember "x").coalesce (.num (.finite 0)) =
      .num (.finite ((xv.getD 0 : ℤ) : ℚ)) := by
  rcases xv with _ | xn <;> rcases yv with _ | yn <;>
    rcases wv with _ | wn <;> rcases hv with _ | hn <;>
    simp [bboxJson, optField, Json.chainMember, Json.memberD, Json.isNullish,
      Json.coalesce, List.lookup]

/-- The coalesced `y` field of a `bboxJson`. -/
lemma bboxJson_field_y (xv yv wv hv : Option ℤ) :
    ((bboxJson xv yv wv hv).chainMember "y").coalesce (.num (.finite 0)) =
      .num (.finite ((yv.getD 0 : ℤ) : ℚ)) := by
  rcases xv with _ | xn <;> rcases yv with _ | yn <;>
    rcases wv with _ | wn <;> rcases hv with _ | hn <;>
    simp [bboxJson, optField, Json.chainMember, Json.memberD, Json.isNullish,
      Json.coalesce, List.lookup]

/-- The coalesced `w` field of a `bboxJson` (default `40`). -/
lemma bboxJson_field_w (xv yv wv hv : Option ℤ) :
    ((bboxJson xv yv wv hv).chainMember "w").coalesce (.num (.finite 40)) =
      .num (.finite ((wv.getD 40 : ℤ) : ℚ)) := by
  rcases xv with _ | xn <;> rcases yv with _ | yn <;>
    rcases wv with _ | wn <;> rcases hv with _ | hn <;>
    simp [bboxJson, optField, Json.chainMember, Json.memberD, Json.isNullish,
      Json.coalesce, List.lookup]

/-- The coalesced `h` field of a `bboxJson` (default `40`). -/
lemma bboxJson_field_h (xv yv wv hv : Option ℤ) :
    ((bboxJson xv yv wv hv).chainMember "h").coalesce (.num (.finite 40)) =
      .num (.finite ((hv.getD 40 : ℤ) : ℚ)) := by
  rcases xv with _ | xn <;> rcases yv with _ | yn <;>
    rcases wv with _ | wn <;> rcases hv with _ | hn <;>
    simp [bboxJson, optField, Json.chainMember, Json.memberD, Json.isNullish,
      Json.coalesce, List.lookup]

/-- Normalizing an id-less integer-or-missing bbox entry yields exactly the
spec's clamp values and the positional id. -/
lemma normalizeIssue_issueNoId (W H : ℤ) (idx : Nat) (xv yv wv hv : Option ℤ) :
    normalizeIssue W H idx (issueNoId xv yv wv hv) =
      .ok ⟨issueNoId xv yv wv hv,
        .str ("iss_" ++ toString (idx + 1)),
        .finite ((specX W xv : ℤ) : ℚ),
        .finite ((specY H yv : ℤ) : ℚ),
        .finite ((specW W xv wv : ℤ) : ℚ),
        .finite ((specH H yv hv : ℤ) : ℚ)⟩ := by
  have hbbox : (issueNoId xv yv wv hv).memberD "bbox" = bboxJson xv yv wv hv := by
    simp [issueNoId, Json.memberD, List.lookup]
  have hid : (issueNoId xv yv wv hv).memberD "id" = Json.undefined := by
    simp [issueNoId, Json.memberD, List.lookup]
  have hnn : (issueNoId xv yv wv hv).isNullish = false := rfl
  simp only [normalizeIssue, hnn, Bool.false_eq_true, if_false, hbbox, hid,
    bboxJson_field_x, bboxJson_field_y, bboxJson_field_w, bboxJson_field_h,
    Json.truthy]
  have cx : clampInt (.num (.finite ((xv.getD 0 : ℤ) : ℚ)))
      (.finite 0) (.finite ((W : ℚ) - 1)) = .finite ((specX W xv : ℤ) : ℚ) := by
    rw [clampInt_finite, floor_intCast_add_half]
    congr 1
    unfold specX
    push_cast
    rfl
  have cy : clampInt (.num (.finite ((yv.getD 0 : ℤ) : ℚ)))
      (.finite 0) (.finite ((H : ℚ) - 1)) = .finite ((specY H yv : ℤ) : ℚ) := by
    rw [clampInt_finite, floor_intCast_add_half]
    congr 1
    unfold specY
    push_cast
    rfl
  rw [cx, cy]
  simp only [jsSub]
  have cw : clampInt (.num (.finite ((wv.getD 40 : ℤ) : ℚ)))
      (.finite 10) (.finite ((W : ℚ) - ((specX W xv : ℤ) : ℚ))) =
      .finite ((specW W xv wv : ℤ) : ℚ) := by
    rw [clampInt_finite, floor_intCast_add_half]
    congr 1
    unfold specW
    push_cast
    rfl
  have ch : clampInt (.num (.finite ((hv.getD 40 : ℤ) : ℚ)))
      (.finite 10) (.finite ((H : ℚ) - ((specY H yv : ℤ) : ℚ))) =
      .finite ((specH H yv hv : ℤ) : ℚ) := by
    rw [clampInt_finite, floor_intCast_add_half]
    congr 1
    unfold specH
    push_cast
    rfl
  rw [cw, ch]

/-- **C4.**  Per-issue geometry rules of the normalizer, for issue entries
whose bbox fields are integers or missing and which carry no `id`:
(1) the normalized issue gets id `iss_<idx+1>` and exactly the spec's
clamp values (`x` into `[0, width-1]` default 0, `y` into `[0, height-1]`
default 0, `w` into `[10, width-x]` default 40, `h` into `[10, height-y]`
default 40); (2) the entry at position `k` of the issues array is
normalized with `idx = k`, so a missing id becomes the 1-based
`iss_<k+1>`; (3) scenario:
`normalize({issues:[{bbox:{x:-5,y:-5,w:999999,h:999999}}]}, 800, 600)`
yields a single issue `iss_1` with `x = 0`, `y = 0`, `w = 800 ≤ 800`,
`h = 600 ≤ 600`. -/
theorem normalizer_per_issue_rules :
    (∀ (width height : ℤ) (idx : Nat) (xv yv wv hv : Option ℤ),
      normalizeIssue width height idx (issueNoId xv yv wv hv) =
        .ok ⟨issueNoId xv yv wv hv,
          .str ("iss_" ++ toString (idx + 1)),
          .finite ((specX width xv : ℤ) : ℚ),
          .finite ((specY height yv : ℤ) : ℚ),
          .finite ((specW width xv wv : ℤ) : ℚ),
          .finite ((specH height yv hv : ℤ) : ℚ)⟩) ∧
    (∀ (l : List Json) (width height : ℤ) (out : List NIssue) (k : Nat)
      (xv yv wv hv : Option ℤ),
      mapIssues width height 0 l = .ok out →
      l.get? k = some (issueNoId xv yv wv hv) →
      out.get? k = some ⟨issueNoId xv yv wv hv,
        .str ("iss_" ++ toString (k + 1)),
        .finite ((specX width xv : ℤ) : ℚ),
        .finite ((specY height yv : ℤ) : ℚ),
        .finite ((specW width xv wv : ℤ) : ℚ),
        .finite ((specH height yv hv : ℤ) : ℚ)⟩) ∧
    (issuesLengthOf (normalizeResult
        (Json.obj [("issues", Json.arr [issueNoId (some (-5)) (some (-5))
          (some 999999) (some 999999)])]) 800 600) = some 1 ∧
      issueBBoxAt (normalizeResult
        (Json.obj [("issues", Json.arr [issueNoId (some (-5)) (some (-5))
          (some 999999) (some 999999)])]) 800 600) 0 =
        some (.finite 0, .finite 0, .finite 800, .finite 600) ∧
      (800 : ℚ) ≤ 800 ∧ (600 : ℚ) ≤ 600 ∧
      issueIdStringAt (normalizeResult
        (Json.obj [("issues", Json.arr [issueNoId (some (-5)) (some (-5))
          (some 999999) (some 999999)])]) 800 600) 0 = some "iss_1") := by
  refine ⟨normalizeIssue_issueNoId, ?_, ?_⟩
  · intro l W H out k xv yv wv hv hmap hk
    obtain ⟨ni, hni, hout⟩ := mapIssues_get W H l 0 out hmap k _ hk
    rw [normalizeIssue_issueNoId W H (0 + k) xv yv wv hv, Except.ok.injEq] at hni
    rw [hout, ← hni, Nat.zero_add]
  · have hx : specX 800 (some (-5)) = 0 := by decide
    have hy : specY 600 (some (-5)) = 0 := by decide
    have hw : specW 800 (some (-5)) (some 999999) = 800 := by decide
    have hh : specH 600 (some (-5)) (some 999999) = 600 := by decide
    have hni := normalizeIssue_issueNoId 800 600 0 (some (-5)) (some (-5))
      (some 999999) (some 999999)
    rw [hx, hy, hw, hh] at hni
    have hmap : mapIssues 800 600 0 [issueNoId (some (-5)) (some (-5))
        (some 999999) (some 999999)] =
        .ok [⟨issueNoId (some (-5)) (some (-5)) (some 999999) (some 999999),
          .str ("iss_" ++ toString (0 + 1)),
          .finite ((0 : ℤ) : ℚ), .finite ((0 : ℤ) : ℚ),
          .finite ((800 : ℤ) : ℚ), .finite ((600 : ℤ) : ℚ)⟩] := by
      simp only [mapIssues, hni]
    simp [normalizeResult, Json.getMember, Json.isNullish, Json.memberD,
      List.lookup, Json.truthy, hmap, issuesLengthOf, issueBBoxAt,
      issueIdStringAt]
    decide

/-! ## Claim C5: non-finite bbox inputs -/

/-- **C5, witness companion input**: a bbox whose `x` is NaN, `y` is
`-Infinity`, `w` is `+Infinity` and `h` is NaN. -/
def nonFiniteIssue : Json :=
  .obj [("bbox", .obj [("x", .num .nan), ("y", .num .negInf),
    ("w", .num .posInf), ("h", .num .nan)])]

/-- **C5, counterexample.**  `+Infinity` is NOT treated as the minimum
bound: at `width = 800` a `bbox.x` of `+Infinity` normalizes to the
maximum bound `799`, not to the minimum bound `0` (only NaN takes the
early-return-min branch; `+Infinity` survives `Math.round` and
`Math.max` and is then cut to `max` by `Math.min`). -/
theorem nonfinite_clamp_counterexample :
    issueBBoxAt (normalizeResult
      (Json.obj [("issues", Json.arr
        [Json.obj [("bbox", Json.obj [("x", Json.num .posInf)])]])]) 800 600) 0 =
      some (.finite 799, .finite 0, .finite 1, .finite 40) ∧
    JsNum.finite (799 : ℚ) ≠ JsNum.finite 0 := by
  constructor
  · have hni : normalizeIssue 800 600 0
        (Json.obj [("bbox", Json.obj [("x", Json.num .posInf)])]) =
        .ok ⟨Json.obj [("bbox", Json.obj [("x", Json.num .posInf)])],
          Json.str "iss_1", .finite 799, .finite 0, .finite 1, .finite 40⟩ := by
      simp [normalizeIssue, Json.isNullish, Json.memberD, List.lookup,
        Json.chainMember, Json.coalesce, Json.isNaNValue, Json.toNumber,
        clampInt, jsRound, jsMax, jsMin, jsSub, Json.truthy]
      norm_num
      decide
    have hmap : mapIssues 800 600 0
        [Json.obj [("bbox", Json.obj [("x", Json.num .posInf)])]] =
        .ok [⟨Json.obj [("bbox", Json.obj [("x", Json.num .posInf)])],
          Json.str "iss_1", .finite 799, .finite 0, .finite 1, .finite 40⟩] := by
      simp only [mapIssues, hni]
    simp [normalizeResult, Json.getMember, Json.isNullish, Json.memberD,
      List.lookup, Json.truthy, hmap, issueBBoxAt]
  · intro h
    rw [JsNum.finite.injEq] at h
    norm_num at h

/-- **C5, amended.**  In `clampInt` (hence in `normalize`), the NaN number
is treated as the minimum bound; `-Infinity` becomes `min(lo, hi)` (the
minimum bound whenever the range is non-degenerate); `+Infinity` becomes
the **maximum** bound.  In `normalize`'s per-issue use (positive
dimensions): a NaN `x` gives `0`, a `-Infinity` `y` gives `0`, a
`+Infinity` `w` gives the full remaining width `width - x`, a NaN `h`
gives `10`. -/
theorem nonfinite_clamp_amended :
    (∀ lo hi : ℚ,
      clampInt (.num .nan) (.finite lo) (.finite hi) = .finite lo ∧
      clampInt (.num .negInf) (.finite lo) (.finite hi) = .finite (min hi lo) ∧
      clampInt (.num .posInf) (.finite lo) (.finite hi) = .finite hi) ∧
    (∀ (width height : ℤ) (idx : Nat), 1 ≤ width → 1 ≤ height →
      normalizeIssue width height idx nonFiniteIssue =
        .ok ⟨nonFiniteIssue, .str ("iss_" ++ toString (idx + 1)),
          .finite 0, .finite 0, .finite (width : ℚ), .finite 10⟩) := by
  constructor
  · exact fun lo hi => ⟨rfl, rfl, rfl⟩
  · intro W H idx hW hH
    have hHq : (0 : ℚ) ≤ (H : ℚ) - 1 := by
      have : (1 : ℚ) ≤ (H : ℚ) := by exact_mod_cast hH
      linarith
    simp [normalizeIssue, nonFiniteIssue, Json.isNullish, Json.memberD,
      List.lookup, Json.chainMember, Json.coalesce, Json.isNaNValue,
      Json.toNumber, clampInt, jsRound, jsMax, jsMin, jsSub, Json.truthy,
      min_eq_right hHq]

/-- **C5, witness** for the amended theorem: the clamp values at
`lo = 0`, `hi = 799`, and the normalization of the mixed non-finite bbox at
`800 × 600`. -/
theorem nonfinite_clamp_witness :
    (clampInt (.num .nan) (.finite 0) (.finite 799) = .finite 0 ∧
      clampInt (.num .negInf) (.finite 0) (.finite 799) = .finite (min 799 0) ∧
      clampInt (.num .posInf) (.finite 0) (.finite 799) = .finite 799) ∧
    normalizeIssue 800 600 0 nonFiniteIssue =
      .ok ⟨nonFiniteIssue, .str ("iss_" ++ toString (0 + 1)),
        .finite 0, .finite 0, .finite ((800 : ℤ) : ℚ), .finite 10⟩ :=
  ⟨nonfinite_clamp_amended.1 0 799,
    nonfinite_clamp_amended.2 800 600 0 (by norm_num) (by norm_num)⟩

/-! ## Claim C6: order and length preservation -/

/-- **C6.**  Whenever `normalize` returns, its output issues array has the
same length as the input issues array, in the same order: the `k`-th
output issue is the normalization of the `k`-th input entry (its spread
source IS that entry), and an empty input issues array yields an empty
output issues array, not an error. -/
theorem normalizer_order_preservation :
    (∀ (raw : Json) (width height : ℤ) (r : NormResult) (l : List Json),
      normalizeResult raw width height = .ok r →
      raw.memberD "issues" = .arr l →
      r.issues.length = l.length ∧
      r.issues.map NIssue.orig = l ∧
      (∀ (k : Nat) (j : Json), l.get? k = some j →
        ∃ ni, normalizeIssue width height k j = .ok ni ∧
          r.issues.get? k = some ni)) ∧
    (∀ (raw : Json) (width height : ℤ), raw.isNullish = false →
      raw.memberD "issues" = .arr [] →
      ∃ r, normalizeResult raw width height = .ok r ∧ r.issues = []) := by
  constructor
  · intro raw W H r l hres harr
    unfold normalizeResult at hres
    split at hres
    · exact absurd hres (by simp)
    · rename_i issuesJ hget
      have hmem := getMember_ok_eq raw "issues" issuesJ hget
      subst hmem
      rw [harr] at hres
      have htru : Json.truthy (Json.arr l) = true := rfl
      rw [htru] at hres
      simp only [if_true] at hres
      split at hres
      · exact absurd hres (by simp)
      · rename_i issues hmap
        rw [Except.ok.injEq] at hres
        subst hres
        have horig := mapIssues_orig W H l 0 issues hmap
        refine ⟨?_, horig, ?_⟩
        · rw [← horig, List.length_map]
        · intro k j hk
          obtain ⟨ni, hni, hout⟩ := mapIssues_get W H l 0 issues hmap k j hk
          exact ⟨ni, by simpa using hni, hout⟩
  · intro raw W H hnn harr
    unfold normalizeResult
    rw [getMember_ok_of_not_nullish raw "issues" hnn, harr]
    exact ⟨_, rfl, rfl⟩

/-- **C6, witness**: a one-entry issues array (an empty-object issue)
normalizes to a one-entry output whose spread source is the input entry,
and an empty issues array yields an empty output. -/
theorem normalizer_order_preservation_witness :
    normalizeResult (Json.obj [("issues", Json.arr [Json.obj []])]) 800 600 =
      .ok ⟨800, 600, [⟨Json.obj [], Json.str "iss_1", .finite 0, .finite 0,
        .finite 40, .finite 40⟩], false, Json.undefined⟩ ∧
    ([⟨Json.obj [], Json.str "iss_1", .finite 0, .finite 0,
        .finite 40, .finite 40⟩] : List NIssue).map NIssue.orig =
      [Json.obj []] ∧
    (∃ r, normalizeResult (Json.obj [("issues", Json.arr [])]) 800 600 =
      .ok r ∧ r.issues = []) := by
  have hni : normalizeIssue 800 600 0 (Json.obj []) =
      .ok ⟨Json.obj [], Json.str "iss_1", .finite 0, .finite 0,
        .finite 40, .finite 40⟩ := by
    simp [normalizeIssue, Json.isNullish, Json.memberD, List.lookup,
      Json.chainMember, Json.coalesce, Json.isNaNValue, Json.toNumber,
      clampInt, jsRound, jsMax, jsMin, jsSub, Json.truthy]
    norm_num
    decide
  have hmap : mapIssues 800 600 0 [Json.obj []] =
      .ok [⟨Json.obj [], Json.str "iss_1", .finite 0, .finite 0,
        .finite 40, .finite 40⟩] := by
    simp only [mapIssues, hni]
  have hres : normalizeResult (Json.obj [("issues", Json.arr [Json.obj []])])
      800 600 =
      .ok ⟨800, 600, [⟨Json.obj [], Json.str "iss_1", .finite 0, .finite 0,
        .finite 40, .finite 40⟩], false, Json.undefined⟩ := by
    simp [normalizeResult, Json.getMember, Json.isNullish, Json.memberD,
      List.lookup, Json.truthy, hmap, Json.chainMember]
  exact ⟨hres,
    (normalizer_order_preservation.1 _ 800 600 _ [Json.obj []] hres rfl).2.1,
    normalizer_order_preservation.2 _ 800 600 (by decide) rfl⟩

/-! ## Claim C9: integer bbox fields -/

/-- A bbox field value that is missing (nullish) or a finite number. -/
def isFiniteOrMissing (v : Json) : Bool :=
  v.isNullish ||
    (match v with
     | .num (.finite _) => true
     | _ => false)

/-- All four bbox fields of an issue entry are finite numbers or
missing. -/
def bboxFieldsFinite (j : Json) : Bool :=
  let bbox := j.memberD "bbox"
  isFiniteOrMissing (bbox.chainMember "x") &&
    isFiniteOrMissing (bbox.chainMember "y") &&
    isFiniteOrMissing (bbox.chainMember "w") &&
    isFiniteOrMissing (bbox.chainMember "h")

/-- Coalescing a finite-or-missing field against a finite default yields a
finite number value. -/
lemma isFiniteOrMissing_coalesce (v : Json) (d : ℚ)
    (hv : isFiniteOrMissing v = true) :
    ∃ q : ℚ, v.coalesce (.num (.finite d)) = .num (.finite q) := by
  cases v with
  | undefined => exact ⟨d, rfl⟩
  | null => exact ⟨d, rfl⟩
  | num x =>
    cases x with
    | finite q => exact ⟨q, rfl⟩
    | nan => simp [isFiniteOrMissing, Json.isNullish] at hv
    | posInf => simp [isFiniteOrMissing, Json.isNullish] at hv
    | negInf => simp [isFiniteOrMissing, Json.isNullish] at hv
  | bool b => simp [isFiniteOrMissing, Json.isNullish] at hv
  | str s => simp [isFiniteOrMissing, Json.isNullish] at hv
  | arr l => simp [isFiniteOrMissing, Json.isNullish] at hv
  | obj f => simp [isFiniteOrMissing, Json.isNullish] at hv

/-- **C9 (implicit).**  For finite (or missing) numeric bbox inputs,
`normalize` produces integer bbox fields: each of x, y, w, h is rounded to
the nearest integer and clamped, so every output coordinate is an integer
cast into the number domain; in particular an input `x = 5.4` becomes
`5` — it does not survive unchanged. -/
theorem normalizer_integer_bbox :
    (∀ (width height : ℤ) (idx : Nat) (j : Json) (ni : NIssue),
      bboxFieldsFinite j = true →
      normalizeIssue width height idx j = .ok ni →
      ∃ a b c d : ℤ, ni.x = .finite (a : ℚ) ∧ ni.y = .finite (b : ℚ) ∧
        ni.w = .finite (c : ℚ) ∧ ni.h = .finite (d : ℚ)) ∧
    (issueBBoxAt (normalizeResult
      (Json.obj [("issues", Json.arr
        [Json.obj [("bbox", Json.obj [("x", Json.num (.finite (27/5)))])]])])
      800 600) 0 =
      some (.finite 5, .finite 0, .finite 40, .finite 40) ∧
      (27 / 5 : ℚ) ≠ 5) := by
  constructor
  · intro W H idx j ni hfin h
    simp only [bboxFieldsFinite, Bool.and_eq_true] at hfin
    obtain ⟨⟨⟨hfx, hfy⟩, hfw⟩, hfh⟩ := hfin
    by_cases hnull : j.isNullish
    · simp [normalizeIssue, hnull] at h
    · simp only [normalizeIssue, hnull, Bool.false_eq_true, if_false] at h
      obtain ⟨qx, hqx⟩ := isFiniteOrMissing_coalesce _ 0 hfx
      obtain ⟨qy, hqy⟩ := isFiniteOrMissing_coalesce _ 0 hfy
      obtain ⟨qw, hqw⟩ := isFiniteOrMissing_coalesce _ 40 hfw
      obtain ⟨qh, hqh⟩ := isFiniteOrMissing_coalesce _ 40 hfh
      rw [hqx, hqy, hqw, hqh] at h
      rw [show ((0 : ℚ)) = ((0 : ℤ) : ℚ) by norm_num,
        show ((W : ℚ) - 1) = (((W - 1 : ℤ)) : ℚ) by push_cast; ring,
        show ((H : ℚ) - 1) = (((H - 1 : ℤ)) : ℚ) by push_cast; ring] at h
      rw [clampInt_finite qx, clampInt_finite qy] at h
      rw [show min (((W - 1 : ℤ)) : ℚ) (max ((0 : ℤ) : ℚ) ((⌊qx + 1/2⌋ : ℤ) : ℚ)) =
          ((min (W - 1) (max 0 ⌊qx + 1/2⌋) : ℤ) : ℚ) by push_cast; rfl,
        show min (((H - 1 : ℤ)) : ℚ) (max ((0 : ℤ) : ℚ) ((⌊qy + 1/2⌋ : ℤ) : ℚ)) =
          ((min (H - 1) (max 0 ⌊qy + 1/2⌋) : ℤ) : ℚ) by push_cast; rfl] at h
      simp only [jsSub] at h
      rw [show ((10 : ℚ)) = ((10 : ℤ) : ℚ) by norm_num,
        show ((W : ℚ) - ((min (W - 1) (max 0 ⌊qx + 1/2⌋) : ℤ) : ℚ)) =
          (((W - min (W - 1) (max 0 ⌊qx + 1/2⌋) : ℤ)) : ℚ) by push_cast; ring,
        show ((H : ℚ) - ((min (H - 1) (max 0 ⌊qy + 1/2⌋) : ℤ) : ℚ)) =
          (((H - min (H - 1) (max 0 ⌊qy + 1/2⌋) : ℤ)) : ℚ) by push_cast; ring] at h
      rw [clampInt_finite qw, clampInt_finite qh] at h
      rw [Except.ok.injEq] at h
      subst h
      refine ⟨min (W - 1) (max 0 ⌊qx + 1/2⌋), min (H - 1) (max 0 ⌊qy + 1/2⌋),
        min (W - min (W - 1) (max 0 ⌊qx + 1/2⌋)) (max 10 ⌊qw + 1/2⌋),
        min (H - min (H - 1) (max 0 ⌊qy + 1/2⌋)) (max 10 ⌊qh + 1/2⌋),
        rfl, rfl, ?_, ?_⟩
      · show JsNum.finite (min (((W - min (W - 1) (max 0 ⌊qx + 1/2⌋) : ℤ)) : ℚ)
          (max ((10 : ℤ) : ℚ) ((⌊qw + 1/2⌋ : ℤ) : ℚ))) = _
        congr 1
        push_cast
        rfl
      · show JsNum.finite (min (((H - min (H - 1) (max 0 ⌊qy + 1/2⌋) : ℤ)) : ℚ)
          (max ((10 : ℤ) : ℚ) ((⌊qh + 1/2⌋ : ℤ) : ℚ))) = _
        congr 1
        push_cast
        rfl
  · constructor
    · have hni : normalizeIssue 800 600 0
          (Json.obj [("bbox", Json.obj [("x", Json.num (.finite (27/5)))])]) =
          .ok ⟨Json.obj [("bbox", Json.obj [("x", Json.num (.finite (27/5)))])],
            Json.str "iss_1", .finite 5, .finite 0, .finite 40, .finite 40⟩ := by
        simp [normalizeIssue, Json.isNullish, Json.memberD, List.lookup,
          Json.chainMember, Json.coalesce, Json.isNaNValue, Json.toNumber,
          clampInt, jsRound, jsMax, jsMin, jsSub, Json.truthy]
        norm_num
        decide
      have hmap : mapIssues 800 600 0
          [Json.obj [("bbox", Json.obj [("x", Json.num (.finite (27/5)))])]] =
          .ok [⟨Json.obj [("bbox", Json.obj [("x", Json.num (.finite (27/5)))])],
            Json.str "iss_1", .finite 5, .finite 0, .finite 40, .finite 40⟩] := by
        simp only [mapIssues, hni]
      simp [normalizeResult, Json.getMember, Json.isNullish, Json.memberD,
        List.lookup, Json.truthy, hmap, issueBBoxAt]
    · norm_num

/-- **C9, witness**: the integrality theorem applied to the concrete entry
`{bbox:{x:5.4}}` at `800 × 600`. -/
theorem normalizer_integer_bbox_witness :
    bboxFieldsFinite
      (Json.obj [("bbox", Json.obj [("x", Json.num (.finite (27/5)))])]) = true ∧
    (∃ a b c d : ℤ,
      (⟨Json.obj [("bbox", Json.obj [("x", Json.num (.finite (27/5)))])],
        Json.str "iss_1", .finite 5, .finite 0, .finite 40,
        .finite 40⟩ : NIssue).x = .finite (a : ℚ) ∧
      (⟨Json.obj [("bbox", Json.obj [("x", Json.num (.finite (27/5)))])],
        Json.str "iss_1", .finite 5, .finite 0, .finite 40,
        .finite 40⟩ : NIssue).y = .finite (b : ℚ) ∧
      (⟨Json.obj [("bbox", Json.obj [("x", Json.num (.finite (27/5)))])],
        Json.str "iss_1", .finite 5, .finite 0, .finite 40,
        .finite 40⟩ : NIssue).w = .finite (c : ℚ) ∧
      (⟨Json.obj [("bbox", Json.obj [("x", Json.num (.finite (27/5)))])],
        Json.str "iss_1", .finite 5, .finite 0, .finite 40,
        .finite 40⟩ : NIssue).h = .finite (d : ℚ)) := by
  have hni : normalizeIssue 800 600 0
      (Json.obj [("bbox", Json.obj [("x", Json.num (.finite (27/5)))])]) =
      .ok ⟨Json.obj [("bbox", Json.obj [("x", Json.num (.finite (27/5)))])],
        Json.str "iss_1", .finite 5, .finite 0, .finite 40, .finite 40⟩ := by
    simp [normalizeIssue, Json.isNullish, Json.memberD, List.lookup,
      Json.chainMember, Json.coalesce, Json.isNaNValue, Json.toNumber,
      clampInt, jsRound, jsMax, jsMin, jsSub, Json.truthy]
    norm_num
    decide
  have hfin : bboxFieldsFinite
      (Json.obj [("bbox", Json.obj [("x", Json.num (.finite (27/5)))])]) = true := by
    simp [bboxFieldsFinite, isFiniteOrMissing, Json.memberD, Json.chainMember,
      Json.isNullish, List.lookup]
  exact ⟨hfin, normalizer_integer_bbox.1 800 600 0 _ _ hfin hni⟩

/-! ## Claim C10: empty external analysis falls back -/

/-- **C10 (implicit).**  In the analyze endpoint, a successful external
analysis whose normalized issues array is empty is discarded: the response
is the synthesized fallback, exactly the same response as when the
external call throws or when no API key is configured. -/
theorem analyze_empty_fallback (key : String) (j : Json) (width height : ℤ)
    (r : NormResult) (fileName : String) (fileSize : Nat) (platform : String)
    (msg : String)
    (hres : normalizeResult j width height = .ok r)
    (hempty : r.issues = []) :
    postAnalyze (some key) (.ok j) fileName fileSize width height platform =
      (fallbackResponse fileName fileSize width height platform).map .fallback ∧
    postAnalyze none (.ok j) fileName fileSize width height platform =
      (fallbackResponse fileName fileSize width height platform).map .fallback ∧
    postAnalyze (some key) (.error msg) fileName fileSize width height
        platform =
      (fallbackResponse fileName fileSize width height platform).map .fallback := by
  refine ⟨?_, rfl, rfl⟩
  simp [postAnalyze, hres, hempty]

/-- **C10, witness**: a successful external result with an empty issues
array (`{issues:[]}` normalized at `800 × 600`) is answered with the
synthesized fallback, like the no-key and the throwing cases. -/
theorem analyze_empty_fallback_witness :
    postAnalyze (some "k") (.ok (Json.obj [("issues", Json.arr [])]))
      "shot.png" 3 800 600 "web" =
      (fallbackResponse "shot.png" 3 800 600 "web").map .fallback ∧
    postAnalyze none (.ok (Json.obj [("issues", Json.arr [])]))
      "shot.png" 3 800 600 "web" =
      (fallbackResponse "shot.png" 3 800 600 "web").map .fallback ∧
    postAnalyze (some "k") (.error "Gemini returned non-JSON output")
      "shot.png" 3 800 600 "web" =
      (fallbackResponse "shot.png" 3 800 600 "web").map .fallback := by
  have hres : normalizeResult (Json.obj [("issues", Json.arr [])]) 800 600 =
      .ok ⟨800, 600, [], false, Json.undefined⟩ := by
    simp [normalizeResult, Json.getMember, Json.isNullish, Json.memberD,
      List.lookup, Json.truthy, mapIssues, Json.chainMember]
  exact analyze_empty_fallback "k" _ 800 600 _ "shot.png" 3 "web"
    "Gemini returned non-JSON output" hres rfl

/-- **C4, witness**: the positional rule applied to a one-entry issues
array with an id-less, bbox-less issue at position 0; defaults give
`x = 0`, `y = 0`, `w = 40`, `h = 40` and id `iss_1`. -/
theorem normalizer_per_issue_rules_witness :
    mapIssues 800 600 0 [issueNoId none none none none] =
      .ok [⟨issueNoId none none none none,
        .str ("iss_" ++ toString (0 + 1)),
        .finite ((specX 800 none : ℤ) : ℚ),
        .finite ((specY 600 none : ℤ) : ℚ),
        .finite ((specW 800 none none : ℤ) : ℚ),
        .finite ((specH 600 none none : ℤ) : ℚ)⟩] ∧
    ([⟨issueNoId none none none none,
        .str ("iss_" ++ toString (0 + 1)),
        .finite ((specX 800 none : ℤ) : ℚ),
        .finite ((specY 600 none : ℤ) : ℚ),
        .finite ((specW 800 none none : ℤ) : ℚ),
        .finite ((specH 600 none none : ℤ) : ℚ)⟩] : List NIssue).get? 0 =
      some ⟨issueNoId none none none none,
        .str ("iss_" ++ toString (0 + 1)),
        .finite ((specX 800 none : ℤ) : ℚ),
        .finite ((specY 600 none : ℤ) : ℚ),
        .finite ((specW 800 none none : ℤ) : ℚ),
        .finite ((specH 600 none none : ℤ) : ℚ)⟩ := by
  have hmap : mapIssues 800 600 0 [issueNoId none none none none] =
      .ok [⟨issueNoId none none none none,
        .str ("iss_" ++ toString (0 + 1)),
        .finite ((specX 800 none : ℤ) : ℚ),
        .finite ((specY 600 none : ℤ) : ℚ),
        .finite ((specW 800 none none : ℤ) : ℚ),
        .finite ((specH 600 none none : ℤ) : ℚ)⟩] := by
    simp only [mapIssues, normalizeIssue_issueNoId]
  exact ⟨hmap,
    normalizer_per_issue_rules.2.1 _ 800 600 _ 0 none none none none hmap rfl⟩
